import Mathlib

/-!
Verification development for the Rx report extraction application
(src/app.py).  The Python source is shallowly embedded: table cells are
`Option String` (pdfplumber yields text or null), Python floats are modelled
exactly as rationals (`ℚ`, the decimal fragment of `float(...)` that the
report cells use), Python ints as `ℤ`, and the `try/except` fallbacks of the
cell cleaners are mirrored both as total functions and as `Except` variants.
-/

/-- Python's `\s` / `str.strip()` whitespace class (ASCII fragment:
space, tab, newline, carriage return, vertical tab, form feed). -/
def pySpace (c : Char) : Bool :=
  c = ' ' || c = '\t' || c = '\n' || c = '\r' || c = Char.ofNat 11 || c = Char.ofNat 12

/-- Drop whitespace from both ends of a character list (Python `str.strip`). -/
def trimChars (cs : List Char) : List Char :=
  ((cs.dropWhile pySpace).reverse.dropWhile pySpace).reverse

/-- Python `str.strip()`. -/
def pyStrip (s : String) : String := String.mk (trimChars s.data)

/-- Python `str.upper()` (ASCII fragment). -/
def strUpper (s : String) : String := String.mk (s.data.map Char.toUpper)

/-- Python `str.lower()` (ASCII fragment). -/
def strLower (s : String) : String := String.mk (s.data.map Char.toLower)

/-- Scan for the first occurrence of `pat` in a character list; return the
suffix that follows it.  This is the search underlying Python's `in`
operator and the fixed-literal part of `re.search`. -/
def afterFirst (pat : List Char) : List Char → Option (List Char)
  | [] => if pat.isPrefixOf ([] : List Char) then some [] else none
  | c :: t => if pat.isPrefixOf (c :: t) then some ((c :: t).drop pat.length)
              else afterFirst pat t

/-- Python's substring test `pat in hay`. -/
def containsSub (hay pat : String) : Bool := (afterFirst pat.data hay.data).isSome

/-- Value of a digit string, most significant first. -/
def digitsToNat (cs : List Char) : ℕ := cs.foldl (fun a c => 10 * a + (c.toNat - 48)) 0

/-- Powers of ten, for decimal fractions. -/
def pow10 : ℕ → ℕ
  | 0 => 1
  | n + 1 => 10 * pow10 n

/-- The exact rational value of the decimal `ip.frac`. -/
def ratOfDigits (ip frac : List Char) : ℚ :=
  Rat.divInt (digitsToNat ip * pow10 frac.length + digitsToNat frac) (pow10 frac.length)

/-- Unsigned decimal literal: digits with at most one dot, at least one digit.
This is the fragment of Python's `float(...)` grammar the reports use. -/
def pyFloatCore (cs : List Char) : Option ℚ :=
  let ip := cs.takeWhile Char.isDigit
  let rest := cs.drop ip.length
  match rest with
  | [] => if ip.isEmpty then none else some (ratOfDigits ip [])
  | c :: frac =>
    if c = '.' && frac.all Char.isDigit && !(ip.isEmpty && frac.isEmpty) then
      some (ratOfDigits ip frac)
    else none

/-- Model of Python `float(s)` on the decimal fragment: surrounding
whitespace is ignored, an optional sign is allowed; `none` models the
`ValueError` branch. -/
def pyFloatOpt (s : String) : Option ℚ :=
  match trimChars s.data with
  | '-' :: rest => (pyFloatCore rest).map (fun q => -q)
  | '+' :: rest => pyFloatCore rest
  | cs => pyFloatCore cs

/-- Model of Python `int(s)`: surrounding whitespace ignored, optional sign,
then a nonempty digit string; `none` models the `ValueError` branch. -/
def pyIntOpt (s : String) : Option ℤ :=
  match trimChars s.data with
  | '-' :: rest => if !rest.isEmpty && rest.all Char.isDigit
                   then some (-(digitsToNat rest : ℤ)) else none
  | '+' :: rest => if !rest.isEmpty && rest.all Char.isDigit
                   then some ((digitsToNat rest : ℤ)) else none
  | cs => if !cs.isEmpty && cs.all Char.isDigit
          then some ((digitsToNat cs : ℤ)) else none

/-- Characters the `replace` chain of `clean_money` keeps: everything but
dollar signs, commas and spaces. -/
def moneyKeep (c : Char) : Bool := !(c = '$' || c = ',' || c = ' ')

/-- The string surgery of `clean_money` (src/app.py:87-88): the chained
`replace('$','').replace(',','').replace(' ','')` is a filter of those three
characters, and the accounting-negative step rewrites `(` to `-` and drops
`)` when both parentheses are present. -/
def moneySanitize (s : String) : String :=
  let l := s.data.filter moneyKeep
  let l2 := if l.contains '(' && l.contains ')' then
              (l.map (fun c => if c = '(' then '-' else c)).filter (fun c => !(c = ')'))
            else l
  String.mk l2

/-- `clean_money` (src/app.py:85-90).  `none` is Python `None`; the empty
string is falsy like `None`, and the `try/except` around `float` resolves an
unparseable string to the sentinel `0.0`. -/
def clean_money (val : Option String) : ℚ :=
  match val with
  | none => 0
  | some s => if s = "" then 0 else (pyFloatOpt (moneySanitize s)).getD 0

/-- The string surgery of `clean_int` (src/app.py:94): drop commas and
spaces, then `split('.')[0]` keeps the characters before the first dot. -/
def intSanitize (s : String) : String :=
  String.mk ((s.data.filter (fun c => !(c = ',' || c = ' '))).takeWhile (fun c => !(c = '.')))

/-- `clean_int` (src/app.py:92-96). -/
def clean_int (val : Option String) : ℤ :=
  match val with
  | none => 0
  | some s => if s = "" then 0 else (pyIntOpt (intSanitize s)).getD 0

/-- `float(s)` with its `ValueError` made explicit, for the error-handling
claims: `Except.error` is the raising branch `clean_money` catches. -/
def pyFloatE (s : String) : Except String ℚ :=
  match pyFloatOpt s with
  | some q => Except.ok q
  | none => Except.error "could not convert string to float"

/-- `int(s)` with its `ValueError` made explicit. -/
def pyIntE (s : String) : Except String ℤ :=
  match pyIntOpt s with
  | some n => Except.ok n
  | none => Except.error "invalid literal for int"

/-- `clean_money` with the raising inner call and the `except` handler kept
explicit: the handler turns any error into `Except.ok 0`. -/
def cleanMoneyE (val : Option String) : Except String ℚ :=
  match val with
  | none => Except.ok 0
  | some s =>
    if s = "" then Except.ok 0 else
      match pyFloatE (moneySanitize s) with
      | Except.ok q => Except.ok q
      | Except.error _ => Except.ok 0

/-- `clean_int` with the raising inner call and the `except` handler kept
explicit. -/
def cleanIntE (val : Option String) : Except String ℤ :=
  match val with
  | none => Except.ok 0
  | some s =>
    if s = "" then Except.ok 0 else
      match pyIntE (intSanitize s) with
      | Except.ok n => Except.ok n
      | Except.error _ => Except.ok 0

/-- First space-separated token of a string. -/
def firstToken (s : String) : String :=
  String.mk (s.data.takeWhile (fun c => !(c = ' ')))

/-- Numeric coercion as the specification describes it (refinement
comparison definition, following the spec's words, not the source): strip
surrounding whitespace, keep only the content before the first space
(footnote handling), strip dollar signs, commas and percent signs, convert
parenthetical forms to a leading minus, and fall back to 0 on failure. -/
def specCleanMoney (val : Option String) : ℚ :=
  match val with
  | none => 0
  | some s =>
    let t := firstToken (pyStrip s)
    let l := t.data.filter (fun c => !(c = '$' || c = ',' || c = '%'))
    let l2 := if l.contains '(' && l.contains ')' then
                (l.map (fun c => if c = '(' then '-' else c)).filter (fun c => !(c = ')'))
              else l
    (pyFloatOpt (String.mk l2)).getD 0

/-- Blacklist of aggregate/noise terms from the specification's entity-name
classifier (refinement comparison definition). -/
def specBlacklist : List String :=
  ["total", "member", "group", "metro", "micro", "rural", "urban", "grand",
   "access", "network", "pos", "hmo", "ppo", "without", "analysis",
   "question", "survey", "cahps"]

/-- Entity-name classifier as the specification describes it (refinement
comparison definition): length at least 4, contains a comma, contains no
digit, and its lower-cased text contains no blacklisted term. -/
def specNameOk (s : String) : Bool :=
  decide (4 ≤ s.data.length) && s.data.contains ',' &&
    !(s.data.any Char.isDigit) &&
    !(specBlacklist.any (fun t => containsSub (strLower s) t))

/-- One emitted record, the dict appended at src/app.py:185-197 and 208-220.
Scripts are Python ints, money fields Python floats (modelled as `ℚ`). -/
structure RxRecord where
  client_name : String
  report_month : Option String
  cohort_group : String
  delivery_channel : String
  drug_type : String
  scripts : ℤ
  ingredient_cost : ℚ
  dispensing_fee : ℚ
  gross_cost : ℚ
  member_pay : ℚ
  plan_pay : ℚ
deriving DecidableEq

/-- The per-run metadata carried across pages (src/app.py:101-102):
`client_name`, initialised to "Unknown Client", and `current_month_str`,
initialised to Python `None`. -/
structure ParseMeta where
  client : String
  month : Option String
deriving DecidableEq

/-- A table cell as delivered by the table-extraction collaborator:
text or null. -/
abbrev Cell := Option String

/-- A table: rows of cells. -/
abbrev TableT := List (List Cell)

/-- A page as the collaborator exposes it: `extract_text() or ""` and
`extract_tables()`. -/
structure Page where
  text : String
  tables : List TableT

/-- Python truthiness filter used in the comprehensions `... if x`:
null and the empty string are falsy. -/
def truthy : Cell → Option String
  | none => none
  | some s => if s = "" then none else some s

/-- Python `" ".join(...)`. -/
def joinSpace : List String → String
  | [] => ""
  | [s] => s
  | s :: rest => s ++ " " ++ joinSpace rest

/-- `header_dump` (src/app.py:136): flatten the first four rows, keep truthy
cells, upper-case them and join with spaces. -/
def headerDump (t : TableT) : String :=
  joinSpace (((t.take 4).flatten).filterMap (fun c => (truthy c).map strUpper))

/-- `row_str` (src/app.py:150): truthy cells of a row joined with spaces. -/
def rowStr (row : List Cell) : String := joinSpace (row.filterMap truthy)

/-- `script_indices` (src/app.py:156): positions of truthy cells containing
"Scripts". -/
def scriptIndices (row : List Cell) : List ℕ :=
  (row.enum.filter (fun p => match truthy p.2 with
    | some s => containsSub s "Scripts"
    | none => false)).map Prod.fst

/-- The context a data row is processed under: page metadata, the channel
decided from the header dump, and the brand/generic anchor columns.
`none` models the `-1` sentinel of src/app.py:145-146. -/
structure RowCtx where
  client : String
  month : Option String
  channel : String
  brandIdx : Option ℕ
  genericIdx : Option ℕ

/-- `clean_row` (src/app.py:167): truthy cells are stripped, falsy cells
become the empty string (stripping the empty string is itself empty, so the
truthiness test collapses). -/
def cleanCells (row : List Cell) : List String :=
  row.map (fun c => match c with
    | some s => if s = "" then "" else pyStrip s
    | none => "")

/-- The garbage-row substrings of src/app.py:174. -/
def bannedSubs : List String := ["Scripts", "Ingredient", "Total", "Cost", "Client"]

/-- The row-label filter of src/app.py:174: a label is kept when it is
non-empty and contains none of the banned substrings. -/
def rowLabelOk (label : String) : Bool :=
  !(label == "") && !(bannedSubs.any (fun p => containsSub label p))

/-- Build the dict literal appended at src/app.py:185-197 / 208-220. -/
def mkRec (ctx : RowCtx) (label dt : String) (sc : ℤ)
    (ing disp gross mem plan : ℚ) : RxRecord :=
  ⟨ctx.client, ctx.month, label, ctx.channel, dt, sc, ing, disp, gross, mem, plan⟩

/-- EXTRACT BRAND (src/app.py:178-198): guarded by the anchor column being
set and the row being wide enough; emits when scripts or gross cost is
positive.  Nothing inside the Python `try` can raise (the cleaners are
total and the width guard bounds every index), so the `except` is dead. -/
def brandRecords (ctx : RowCtx) (label : String) (cr : List String) : List RxRecord :=
  match ctx.brandIdx with
  | none => []
  | some bi =>
    if bi + 5 < cr.length then
      let sc := clean_int (some (cr.getD bi ""))
      let gross := clean_money (some (cr.getD (bi + 3) ""))
      if sc > 0 ∨ gross > 0 then
        [mkRec ctx label "Brand" sc
          (clean_money (some (cr.getD (bi + 1) "")))
          (clean_money (some (cr.getD (bi + 2) "")))
          gross
          (clean_money (some (cr.getD (bi + 4) "")))
          (clean_money (some (cr.getD (bi + 5) "")))]
      else []
    else []

/-- EXTRACT GENERIC (src/app.py:201-221). -/
def genericRecords (ctx : RowCtx) (label : String) (cr : List String) : List RxRecord :=
  match ctx.genericIdx with
  | none => []
  | some gi =>
    if gi + 5 < cr.length then
      let sc := clean_int (some (cr.getD gi ""))
      let gross := clean_money (some (cr.getD (gi + 3) ""))
      if sc > 0 ∨ gross > 0 then
        [mkRec ctx label "Generic" sc
          (clean_money (some (cr.getD (gi + 1) "")))
          (clean_money (some (cr.getD (gi + 2) "")))
          gross
          (clean_money (some (cr.getD (gi + 4) "")))
          (clean_money (some (cr.getD (gi + 5) "")))]
      else []
    else []

/-- Processing of one data row (src/app.py:166-221): width check (which also
rejects the empty row), the garbage-label filter, then the brand and generic
extractions. -/
def processDataRow (ctx : RowCtx) (row : List Cell) : List RxRecord :=
  let cr := cleanCells row
  if cr.length < 5 then []
  else if rowLabelOk (cr.headD "") then
    brandRecords ctx (cr.headD "") cr ++ genericRecords ctx (cr.headD "") cr
  else []

/-- The data rows following the header row, in order. -/
def rowsRecords (ctx : RowCtx) : List (List Cell) → List RxRecord
  | [] => []
  | r :: rs => processDataRow ctx r ++ rowsRecords ctx rs

/-- Anchor-column assignment (src/app.py:156-163): two or more "Scripts"
cells give brand and generic anchors, exactly one gives only brand. -/
def mkCtx (m : ParseMeta) (ch : String) (headerRow : List Cell) : RowCtx :=
  match scriptIndices headerRow with
  | [] => ⟨m.client, m.month, ch, none, none⟩
  | [i] => ⟨m.client, m.month, ch, some i, none⟩
  | i :: j :: _ => ⟨m.client, m.month, ch, some i, some j⟩

/-- The header-row search of src/app.py:149-153 with the `break` at
src/app.py:222: scan rows until one whose truthy join contains both
"Scripts" and "Ingredient", then treat every following row as data. -/
def tableScan (m : ParseMeta) (ch : String) : TableT → List RxRecord
  | [] => []
  | r :: rest =>
    if containsSub (rowStr r) "Scripts" && containsSub (rowStr r) "Ingredient" then
      rowsRecords (mkCtx m ch r) rest
    else tableScan m ch rest

/-- One table (src/app.py:126-141): empty tables are skipped, the channel is
read from the first four rows' dump, and tables mentioning neither MAIL nor
RETAIL contribute nothing. -/
def tableRecords (m : ParseMeta) (t : TableT) : List RxRecord :=
  if t.isEmpty then []
  else
    let dump := headerDump t
    if containsSub dump "MAIL" then tableScan m "Mail Order" t
    else if containsSub dump "RETAIL" then tableScan m "Retail" t
    else []

/-- All tables of a page, in order. -/
def tablesRecords (m : ParseMeta) : List TableT → List RxRecord
  | [] => []
  | t :: ts => tableRecords m t ++ tablesRecords m ts

/-- The literal searched for at src/app.py:110. -/
def clientTag : String := "Client Name:"

/-- Metadata extraction (src/app.py:110-114): when the page text contains
"Client Name:", `re.search(r"Client Name:\s*(.*)", text)` takes the text
after the first occurrence, skips whitespace, reads to the end of the line
(`.` does not cross a newline) and strips the result. -/
def clientUpdate (m : ParseMeta) (text : String) : ParseMeta :=
  match afterFirst clientTag.data text.data with
  | none => m
  | some rest =>
    { m with client :=
        pyStrip (String.mk ((rest.dropWhile pySpace).takeWhile (fun c => !(c = '\n')))) }

/-- The month alternation of the regex at src/app.py:117, in source order,
with each month's number. -/
def monthNames : List (String × ℕ) :=
  [("January", 1), ("February", 2), ("March", 3), ("April", 4), ("May", 5),
   ("June", 6), ("July", 7), ("August", 8), ("September", 9), ("October", 10),
   ("November", 11), ("December", 12)]

/-- Try the month regex `(January|...|December)\s+(\d{4})` at one position:
alternatives in order, then at least one whitespace, then four digits.
Returns the matched text (`group(0)`), the month number and the year. -/
def tryMonthAt (cs : List Char) : Option (String × ℕ × ℕ) :=
  monthNames.findSome? (fun nm =>
    if nm.1.data.isPrefixOf cs then
      let rest := cs.drop nm.1.data.length
      let ws := rest.takeWhile pySpace
      let rest2 := rest.drop ws.length
      let yd := rest2.take 4
      if !ws.isEmpty && yd.length == 4 && yd.all Char.isDigit then
        some (String.mk (nm.1.data ++ ws ++ yd), nm.2, digitsToNat yd)
      else none
    else none)

/-- `re.search` for the month pattern: leftmost position wins. -/
def monthScan : List Char → Option (String × ℕ × ℕ)
  | [] => none
  | c :: t =>
    match tryMonthAt (c :: t) with
    | some r => some r
    | none => monthScan t

/-- Two-digit zero-padded field of `strftime`. -/
def pad2 (n : ℕ) : String := if n < 10 then "0" ++ toString n else toString n

/-- Four-digit zero-padded year of `strftime`. -/
def pad4 (n : ℕ) : String :=
  if n < 10 then "000" ++ toString n
  else if n < 100 then "00" ++ toString n
  else if n < 1000 then "0" ++ toString n
  else toString n

/-- Month detection (src/app.py:117-123): on a match, `strptime("%B %Y")`
succeeds for any matched year except 0000 (outside datetime's range), giving
the first of the month; on that one failure the raw matched text is kept. -/
def monthUpdate (m : ParseMeta) (text : String) : ParseMeta :=
  match monthScan text.data with
  | none => m
  | some (g0, mo, yr) =>
    if yr = 0 then { m with month := some g0 }
    else { m with month := some (pad4 yr ++ "-" ++ pad2 mo ++ "-01") }

/-- Per-page metadata step (src/app.py:109-123): client first, then month. -/
def metaUpdate (m : ParseMeta) (text : String) : ParseMeta :=
  monthUpdate (clientUpdate m text) text

/-- The page loop of `parse_rx_report` with the `records` accumulator made
explicit: each page first updates the metadata, then appends its tables'
records. -/
def parsePagesAcc : List RxRecord → ParseMeta → List Page → List RxRecord
  | acc, _, [] => acc
  | acc, m, p :: ps =>
    let m2 := metaUpdate m p.text
    parsePagesAcc (acc ++ tablesRecords m2 p.tables) m2 ps

/-- `parse_rx_report` (src/app.py:99-224): a fresh empty accumulator and the
initial metadata, then the page loop. -/
def parse_rx_report (d : List Page) : List RxRecord :=
  parsePagesAcc [] ⟨"Unknown Client", none⟩ d

/-- Metadata after a list of pages, starting from a given state. -/
def metaFold (m : ParseMeta) (ps : List Page) : ParseMeta :=
  ps.foldl (fun a p => metaUpdate a p.text) m

/-- Metadata after a list of pages, from the initial state. -/
def metaAfter (ps : List Page) : ParseMeta := metaFold ⟨"Unknown Client", none⟩ ps

/-- A first-row cell that makes the header dump contain MAIL. -/
def mailRow : List Cell := [some "Mail"]

/-- The column-header row: one "Scripts" cell (index 1), so the brand anchor
is column 1 and there is no generic anchor. -/
def hdrRow : List Cell :=
  [some "County", some "Scripts", some "Ingredient Cost", some "Fee",
   some "Gross", some "Member", some "Plan"]

/-- A data row for "Adair, KY" with 903 scripts and 12.4 gross cost. -/
def adairRow903 : List Cell :=
  [some "Adair, KY", some "903", some "1", some "2", some "12.4", some "3", some "4"]

/-- A document whose single table repeats the identical Adair data row twice
(the "identical table echoed verbatim" situation of the dedup claim). -/
def docDup : List Page := [⟨"", [[mailRow, hdrRow, adairRow903, adairRow903]]⟩]

/-- The record the parser builds from `adairRow903`. -/
def recAdair903 : RxRecord :=
  ⟨"Unknown Client", none, "Adair, KY", "Mail Order", "Brand", 903, 1, 2, Rat.divInt 62 5, 3, 4⟩

/-- Data row: Adair with 122 scripts, gross 10.0. -/
def adairRow122 : List Cell :=
  [some "Adair, KY", some "122", some "1", some "2", some "10.0", some "3", some "4"]

/-- Data row: Adair with 51 scripts, gross 20.0. -/
def adairRow51 : List Cell :=
  [some "Adair, KY", some "51", some "1", some "2", some "20.0", some "3", some "4"]

/-- A document with two same-entity rows that differ in counts. -/
def docSplit : List Page := [⟨"", [[mailRow, hdrRow, adairRow122, adairRow51]]⟩]

/-- The record built from `adairRow122`. -/
def recAdair122 : RxRecord :=
  ⟨"Unknown Client", none, "Adair, KY", "Mail Order", "Brand", 122, 1, 2, 10, 3, 4⟩

/-- The record built from `adairRow51`. -/
def recAdair51 : RxRecord :=
  ⟨"Unknown Client", none, "Adair, KY", "Mail Order", "Brand", 51, 1, 2, 20, 3, 4⟩

/-- Data row: a small entity with 10 scripts. -/
def smallRow : List Cell :=
  [some "Aa, KY", some "10", some "1", some "2", some "1.0", some "3", some "4"]

/-- Data row: a dominant entity with 5000 scripts, far above 90 percent of
the document total. -/
def bigRow : List Cell :=
  [some "Zz, KY", some "5000", some "1", some "2", some "1.0", some "3", some "4"]

/-- A document whose output contains one dominant record. -/
def docBig : List Page := [⟨"", [[mailRow, hdrRow, smallRow, bigRow]]⟩]

/-- The record built from `smallRow`. -/
def recSmall : RxRecord :=
  ⟨"Unknown Client", none, "Aa, KY", "Mail Order", "Brand", 10, 1, 2, 1, 3, 4⟩

/-- The record built from `bigRow`. -/
def recBig : RxRecord :=
  ⟨"Unknown Client", none, "Zz, KY", "Mail Order", "Brand", 5000, 1, 2, 1, 3, 4⟩

/-- Sum of the scripts of a record list. -/
def totalScripts (l : List RxRecord) : ℤ := (l.map RxRecord.scripts).sum

/-- A row context for exercising the data-row filter directly. -/
def ctxPlain : RowCtx := ⟨"Unknown Client", none, "Retail", some 1, none⟩

/-- A data row whose label is all digits: the spec's classifier rejects it,
the code's filter keeps it. -/
def rowDigits : List Cell :=
  [some "12345", some "10", some "1", some "2", some "3", some "4", some "5"]

/-- A data row whose label contains the banned substring "Total". -/
def rowTotal : List Cell :=
  [some "Total Members", some "10", some "1", some "2", some "3", some "4", some "5"]

/-- A one-row table mentioning neither MAIL nor RETAIL. -/
def tblDisclaimer : TableT := [[some "hello"]]

/-- The initial metadata state. -/
def meta0 : ParseMeta := ⟨"Unknown Client", none⟩

/-- Row processing distributes over concatenation of the data-row list:
each row contributes its records independently of every other row. -/
theorem rowsRecords_append (ctx : RowCtx) (a b : List (List Cell)) :
    rowsRecords ctx (a ++ b) = rowsRecords ctx a ++ rowsRecords ctx b := by
  induction a with
  | nil => simp [rowsRecords]
  | cons r rs ih => simp [rowsRecords, ih]

/-- The output of a row list is the concatenation of the per-row outputs,
so its length is the sum of the per-row lengths. -/
theorem rowsRecords_length (ctx : RowCtx) (rs : List (List Cell)) :
    (rowsRecords ctx rs).length = (rs.map (fun r => (processDataRow ctx r).length)).sum := by
  induction rs with
  | nil => simp [rowsRecords]
  | cons r rs ih => simp [rowsRecords, ih]

/-- The page loop only ever appends to its accumulator: running from any
accumulator equals that accumulator followed by a run from the empty one. -/
theorem parsePagesAcc_shift (ps : List Page) :
    ∀ acc m, parsePagesAcc acc m ps = acc ++ parsePagesAcc [] m ps := by
  induction ps with
  | nil => intro acc m; simp [parsePagesAcc]
  | cons p ps ih =>
    intro acc m
    simp only [parsePagesAcc, List.nil_append]
    rw [ih, ih (tablesRecords (metaUpdate m p.text) p.tables), List.append_assoc]

/-- Splitting the page list: the second half runs from the accumulated
records and the folded metadata of the first half. -/
theorem parsePagesAcc_append (qs ps : List Page) :
    ∀ acc m, parsePagesAcc acc m (ps ++ qs) =
      parsePagesAcc (parsePagesAcc acc m ps) (metaFold m ps) qs := by
  induction ps with
  | nil => intro acc m; simp [parsePagesAcc, metaFold]
  | cons p ps ih =>
    intro acc m
    simp only [List.cons_append, parsePagesAcc, metaFold, List.foldl_cons]
    exact ih _ _

/-- Fields every record emitted under a row context carries. -/
def RecFromCtx (ctx : RowCtx) (r : RxRecord) : Prop :=
  r.client_name = ctx.client ∧ r.report_month = ctx.month ∧
    r.delivery_channel = ctx.channel ∧
    (r.drug_type = "Brand" ∨ r.drug_type = "Generic")

theorem mem_brandRecords {ctx : RowCtx} {label : String} {cr : List String}
    {r : RxRecord} (h : r ∈ brandRecords ctx label cr) : RecFromCtx ctx r := by
  simp only [brandRecords] at h
  split at h
  · simp at h
  · split at h
    · split at h
      · simp only [List.mem_singleton] at h
        subst h
        exact ⟨rfl, rfl, rfl, Or.inl rfl⟩
      · simp at h
    · simp at h

theorem mem_genericRecords {ctx : RowCtx} {label : String} {cr : List String}
    {r : RxRecord} (h : r ∈ genericRecords ctx label cr) : RecFromCtx ctx r := by
  simp only [genericRecords] at h
  split at h
  · simp at h
  · split at h
    · split at h
      · simp only [List.mem_singleton] at h
        subst h
        exact ⟨rfl, rfl, rfl, Or.inr rfl⟩
      · simp at h
    · simp at h

theorem mem_processDataRow {ctx : RowCtx} {row : List Cell} {r : RxRecord}
    (h : r ∈ processDataRow ctx row) : RecFromCtx ctx r := by
  simp only [processDataRow] at h
  split at h
  · simp at h
  · split at h
    · rcases List.mem_append.1 h with hb | hg
      · exact mem_brandRecords hb
      · exact mem_genericRecords hg
    · simp at h

theorem mem_rowsRecords {ctx : RowCtx} {rs : List (List Cell)} {r : RxRecord}
    (h : r ∈ rowsRecords ctx rs) : RecFromCtx ctx r := by
  induction rs with
  | nil => simp [rowsRecords] at h
  | cons row rest ih =>
    simp only [rowsRecords] at h
    rcases List.mem_append.1 h with h1 | h2
    · exact mem_processDataRow h1
    · exact ih h2

/-- The context built from a header row keeps the page metadata and the
channel it was given. -/
theorem mkCtx_fields (m : ParseMeta) (ch : String) (hr : List Cell) :
    (mkCtx m ch hr).client = m.client ∧ (mkCtx m ch hr).month = m.month ∧
      (mkCtx m ch hr).channel = ch := by
  unfold mkCtx
  split <;> exact ⟨rfl, rfl, rfl⟩

theorem mem_tableScan {m : ParseMeta} {ch : String} {t : TableT} {r : RxRecord}
    (h : r ∈ tableScan m ch t) :
    r.client_name = m.client ∧ r.report_month = m.month ∧
      r.delivery_channel = ch ∧ (r.drug_type = "Brand" ∨ r.drug_type = "Generic") := by
  induction t with
  | nil => simp [tableScan] at h
  | cons hr rest ih =>
    simp only [tableScan] at h
    split at h
    · have hctx := mkCtx_fields m ch hr
      have hrec := mem_rowsRecords h
      exact ⟨hctx.1 ▸ hrec.1, hctx.2.1 ▸ hrec.2.1, hctx.2.2 ▸ hrec.2.2.1, hrec.2.2.2⟩
    · exact ih h

theorem mem_tableRecords {m : ParseMeta} {t : TableT} {r : RxRecord}
    (h : r ∈ tableRecords m t) :
    r.client_name = m.client ∧ r.report_month = m.month ∧
      (r.delivery_channel = "Mail Order" ∨ r.delivery_channel = "Retail") ∧
      (r.drug_type = "Brand" ∨ r.drug_type = "Generic") := by
  simp only [tableRecords] at h
  split at h
  · simp at h
  · split at h
    · have := mem_tableScan h
      exact ⟨this.1, this.2.1, Or.inl this.2.2.1, this.2.2.2⟩
    · split at h
      · have := mem_tableScan h
        exact ⟨this.1, this.2.1, Or.inr this.2.2.1, this.2.2.2⟩
      · simp at h

theorem mem_tablesRecords {m : ParseMeta} {ts : List TableT} {r : RxRecord}
    (h : r ∈ tablesRecords m ts) :
    r.client_name = m.client ∧ r.report_month = m.month ∧
      (r.delivery_channel = "Mail Order" ∨ r.delivery_channel = "Retail") ∧
      (r.drug_type = "Brand" ∨ r.drug_type = "Generic") := by
  induction ts with
  | nil => simp [tablesRecords] at h
  | cons t ts ih =>
    simp only [tablesRecords] at h
    rcases List.mem_append.1 h with h1 | h2
    · exact mem_tableRecords h1
    · exact ih h2

/-- Unconditional form of `clean_money`: the empty-string early return
coincides with the sanitize-then-parse path. -/
theorem clean_money_sanitize (s : String) :
    clean_money (some s) = (pyFloatOpt (moneySanitize s)).getD 0 := by
  unfold clean_money
  by_cases h : s = ""
  · subst h; decide
  · simp [h]

/-- Dropping one sanitized character anywhere in the input does not change
`moneySanitize`: dollar signs, commas and spaces are removed wherever they
occur, not just at the ends. -/
theorem moneySanitize_drop (s t : String) (c : Char)
    (hc : c = '$' ∨ c = ',' ∨ c = ' ') :
    moneySanitize (s ++ String.mk [c] ++ t) = moneySanitize (s ++ t) := by
  have h1 : (s ++ String.mk [c] ++ t).data = s.data ++ [c] ++ t.data := by
    rw [String.data_append, String.data_append]
  have h2 : (s ++ t).data = s.data ++ t.data := String.data_append s t
  have hp : moneyKeep c = false := by rcases hc with rfl | rfl | rfl <;> rfl
  have key : (s.data ++ [c] ++ t.data).filter moneyKeep =
      (s.data ++ t.data).filter moneyKeep := by
    simp [List.filter_append, hp]
  simp only [moneySanitize]
  rw [h1, h2, key]

/-- `clean_money` ignores sanitized characters wherever they occur. -/
theorem clean_money_drop (s t : String) (c : Char)
    (hc : c = '$' ∨ c = ',' ∨ c = ' ') :
    clean_money (some (s ++ String.mk [c] ++ t)) = clean_money (some (s ++ t)) := by
  rw [clean_money_sanitize, clean_money_sanitize, moneySanitize_drop s t c hc]

/-- Claim C1, counterexample: the pipeline does not collapse exact
duplicates.  On a document whose table repeats the identical
("Adair, KY", 903, 12.4) data row twice, the final output contains two
records for "Adair, KY", not exactly one. -/
theorem c1_counterexample :
    parse_rx_report docDup = [recAdair903, recAdair903] ∧
    ((parse_rx_report docDup).filter (fun r => r.cohort_group == "Adair, KY")).length = 2 := by
  decide

/-- Claim C1 as amended: exact repeats are not collapsed; row processing is
per-occurrence (it distributes over concatenation of the data-row list), so
each identical repeat contributes its own record with the original count —
the duplicated Adair row yields two records, each with scripts 903, and no
summing takes place. -/
theorem c1_no_dedup :
    (∀ (ctx : RowCtx) (a b : List (List Cell)),
      rowsRecords ctx (a ++ b) = rowsRecords ctx a ++ rowsRecords ctx b) ∧
    parse_rx_report docDup = [recAdair903, recAdair903] ∧
    recAdair903.scripts = 903 :=
  ⟨rowsRecords_append, by decide, rfl⟩

/-- Claim C2, counterexample: records sharing an entity label are not
aggregated.  Given ("Adair, KY", 122, 10.0) and ("Adair, KY", 51, 20.0) the
output holds two records with counts 122 and 51 and measures 10 and 20 —
there is no single record with the summed count 173 and no weighted
average. -/
theorem c2_counterexample :
    (parse_rx_report docSplit).length = 2 ∧
    ((parse_rx_report docSplit).filter (fun r => r.scripts == 173)).length = 0 ∧
    (parse_rx_report docSplit).map RxRecord.scripts = [122, 51] ∧
    (parse_rx_report docSplit).map RxRecord.gross_cost = [10, 20] := by
  decide

/-- Claim C2 as amended: no same-entity aggregation is performed; the output
is the concatenation of per-row outputs (its length is the sum of the
per-row lengths), and rows sharing an entity label keep their individual
counts and measures. -/
theorem c2_no_aggregation :
    (∀ (ctx : RowCtx) (rs : List (List Cell)),
      (rowsRecords ctx rs).length = (rs.map (fun r => (processDataRow ctx r).length)).sum) ∧
    parse_rx_report docSplit = [recAdair122, recAdair51] ∧
    recAdair122.gross_cost = 10 ∧ recAdair51.gross_cost = 20 :=
  ⟨rowsRecords_length, by decide, rfl, rfl⟩

/-- Claim C3, counterexample: there is no post-aggregation dominance filter.
On a document producing records with counts 10 and 5000, the 5000-count
record exceeds 90 percent of the 5010 total, yet it remains in the final
output. -/
theorem c3_counterexample :
    (parse_rx_report docBig).map RxRecord.scripts = [10, 5000] ∧
    totalScripts (parse_rx_report docBig) = 5010 ∧
    ((parse_rx_report docBig).filter
      (fun r => 9 * totalScripts (parse_rx_report docBig) < 10 * r.scripts)).length = 1 := by
  decide

/-- Claim C3 as amended: the parser applies no dominance guard; the page
loop only ever appends to its accumulator, and a record holding more than
90 percent of the total count is retained in the output. -/
theorem c3_no_dominant_filter :
    (∀ (acc : List RxRecord) (m : ParseMeta) (ps : List Page),
      parsePagesAcc acc m ps = acc ++ parsePagesAcc [] m ps) ∧
    parse_rx_report docBig = [recSmall, recBig] ∧
    9 * totalScripts (parse_rx_report docBig) < 10 * recBig.scripts :=
  ⟨fun acc m ps => parsePagesAcc_shift ps acc m, by decide, by decide⟩

/-- Claim C4, counterexample: the code's row-label filter is not the
specified classifier.  "12345" (digits, no comma) and "AB" (length 2) are
accepted by the code though the claim says they fail, and a row labelled
"12345" emits a record. -/
theorem c4_counterexample :
    rowLabelOk "12345" = true ∧ rowLabelOk "AB" = true ∧
    specNameOk "12345" = false ∧ specNameOk "AB" = false ∧
    (processDataRow ctxPlain rowDigits).length = 1 := by
  decide

/-- Claim C4 as amended: the row-label filter accepts a label exactly when
it is non-empty and contains none of the substrings "Scripts",
"Ingredient", "Total", "Cost", "Client"; a row whose label fails is skipped
(no record), a wide-enough row whose label passes goes to the brand and
generic extractions, "Adair, KY" passes and "Total Members" fails, while
"12345" and "AB" also pass. -/
theorem c4_label_filter :
    (∀ (ctx : RowCtx) (row : List Cell),
      rowLabelOk ((cleanCells row).headD "") = false → processDataRow ctx row = []) ∧
    (∀ (ctx : RowCtx) (row : List Cell),
      5 ≤ (cleanCells row).length → rowLabelOk ((cleanCells row).headD "") = true →
      processDataRow ctx row =
        brandRecords ctx ((cleanCells row).headD "") (cleanCells row) ++
          genericRecords ctx ((cleanCells row).headD "") (cleanCells row)) ∧
    rowLabelOk "Adair, KY" = true ∧ rowLabelOk "Total Members" = false ∧
    rowLabelOk "12345" = true ∧ rowLabelOk "AB" = true := by
  refine ⟨?_, ?_, by decide, by decide, by decide, by decide⟩
  · intro ctx row h
    simp only [processDataRow]
    split
    · rfl
    · split
      · next hok => rw [h] at hok; exact Bool.noConfusion hok
      · rfl
  · intro ctx row h5 hok
    simp only [processDataRow]
    split
    · next hlt => exact absurd hlt (by omega)
    · rfl

/-- Claim C4 witness: the garbage-label rule applied at a concrete row. -/
theorem c4_label_filter_w : processDataRow ctxPlain rowTotal = [] :=
  c4_label_filter.1 ctxPlain rowTotal (by decide)

/-- Claim C5, counterexample: `clean_money` removes every space (gluing a
footnote token onto the number and shifting its value: "12.4 1" coerces to
12.41, not 12.4) and does not strip percent signs ("50%" coerces to the
0 sentinel); `clean_int` does not strip dollar signs. -/
theorem c5_counterexample :
    clean_money (some "12.4 1") = Rat.divInt 1241 100 ∧
    specCleanMoney (some "12.4 1") = Rat.divInt 62 5 ∧
    clean_money (some "12.4 1") ≠ specCleanMoney (some "12.4 1") ∧
    clean_money (some "50%") = 0 ∧ specCleanMoney (some "50%") = 50 ∧
    clean_int (some "$903") = 0 := by
  decide

/-- Claim C5 as amended: `clean_money` strips dollar signs, commas and all
space characters wherever they occur (so a space-separated footnote token is
concatenated onto the number rather than discarded), converts parenthetical
forms to a leading minus, and does not strip percent signs (a percent value
coerces to the 0 sentinel). -/
theorem c5_sanitize_behavior :
    (∀ s t : String, clean_money (some (s ++ " " ++ t)) = clean_money (some (s ++ t))) ∧
    (∀ s t : String, clean_money (some (s ++ "$" ++ t)) = clean_money (some (s ++ t))) ∧
    (∀ s t : String, clean_money (some (s ++ "," ++ t)) = clean_money (some (s ++ t))) ∧
    clean_money (some "(1,234.50)") = Rat.divInt (-2469) 2 ∧
    clean_money (some "50%") = 0 :=
  ⟨fun s t => clean_money_drop s t ' ' (Or.inr (Or.inr rfl)),
   fun s t => clean_money_drop s t '$' (Or.inl rfl),
   fun s t => clean_money_drop s t ',' (Or.inr (Or.inl rfl)),
   by decide, by decide⟩

/-- Claim C6: numeric coercion never raises to its caller — the explicit
`Except` versions always return `Except.ok` and agree with the total
functions — and null, empty and unparseable inputs all resolve to the 0
sentinel. -/
theorem c6_never_fails :
    (∀ v, cleanMoneyE v = Except.ok (clean_money v)) ∧
    (∀ v, cleanIntE v = Except.ok (clean_int v)) ∧
    clean_money none = 0 ∧ clean_int none = 0 ∧
    clean_money (some "") = 0 ∧ clean_int (some "") = 0 ∧
    (∀ s, pyFloatOpt (moneySanitize s) = none → clean_money (some s) = 0) ∧
    (∀ s, pyIntOpt (intSanitize s) = none → clean_int (some s) = 0) := by
  refine ⟨?_, ?_, rfl, rfl, by decide, by decide, ?_, ?_⟩
  · intro v
    cases v with
    | none => rfl
    | some s =>
      by_cases h : s = ""
      · simp [cleanMoneyE, clean_money, h]
      · cases hp : pyFloatOpt (moneySanitize s) <;>
          simp [cleanMoneyE, clean_money, pyFloatE, h, hp]
  · intro v
    cases v with
    | none => rfl
    | some s =>
      by_cases h : s = ""
      · simp [cleanIntE, clean_int, h]
      · cases hp : pyIntOpt (intSanitize s) <;>
          simp [cleanIntE, clean_int, pyIntE, h, hp]
  · intro s h
    by_cases hs : s = ""
    · simp [clean_money, hs]
    · simp [clean_money, hs, h]
  · intro s h
    by_cases hs : s = ""
    · simp [clean_int, hs]
    · simp [clean_int, hs, h]

/-- Claim C6 witness: unparseable text resolves to the sentinel. -/
theorem c6_never_fails_w :
    clean_money (some "abc") = 0 ∧ clean_int (some "xyz") = 0 :=
  ⟨c6_never_fails.2.2.2.2.2.2.1 "abc" (by decide),
   c6_never_fails.2.2.2.2.2.2.2 "xyz" (by decide)⟩

/-- Claim C7: the extraction pipeline is deterministic and side-effect-free
— equal documents give equal record sets, the page loop only appends to its
accumulator (no hidden cross-invocation state), and every invocation starts
from the empty accumulator and the fixed initial metadata. -/
theorem c7_deterministic :
    (∀ d e : List Page, d = e → parse_rx_report d = parse_rx_report e) ∧
    (∀ (acc : List RxRecord) (m : ParseMeta) (ps : List Page),
      parsePagesAcc acc m ps = acc ++ parsePagesAcc [] m ps) ∧
    (∀ d : List Page, parse_rx_report d = parsePagesAcc [] ⟨"Unknown Client", none⟩ d) :=
  ⟨fun _ _ h => h ▸ rfl, fun acc m ps => parsePagesAcc_shift ps acc m, fun _ => rfl⟩

/-- Claim C7 witness: two runs on the same concrete document coincide. -/
theorem c7_deterministic_w : parse_rx_report docDup = parse_rx_report docDup :=
  c7_deterministic.1 docDup docDup rfl

/-- Claim C8: a Brand (resp. Generic) record is appended for a processed
data row exactly when the anchor column is set, the row is wide enough
(more than anchor + 5 cells), and the coerced scripts or the coerced gross
cost is strictly positive; at most one record per drug type is emitted per
row. -/
theorem c8_emit_iff :
    ∀ (ctx : RowCtx) (label : String) (cr : List String),
    (brandRecords ctx label cr ≠ [] ↔
      ∃ bi, ctx.brandIdx = some bi ∧ bi + 5 < cr.length ∧
        (0 < clean_int (some (cr.getD bi "")) ∨ 0 < clean_money (some (cr.getD (bi + 3) "")))) ∧
    (genericRecords ctx label cr ≠ [] ↔
      ∃ gi, ctx.genericIdx = some gi ∧ gi + 5 < cr.length ∧
        (0 < clean_int (some (cr.getD gi "")) ∨ 0 < clean_money (some (cr.getD (gi + 3) "")))) ∧
    (brandRecords ctx label cr).length ≤ 1 ∧
    (genericRecords ctx label cr).length ≤ 1 := by
  intro ctx label cr
  refine ⟨?_, ?_, ?_, ?_⟩
  · simp only [brandRecords]
    cases hbi : ctx.brandIdx with
    | none => simp
    | some bi =>
      by_cases hw : bi + 5 < cr.length
      · simp [hw, gt_iff_lt]
        rw [or_iff_not_imp_left, not_lt]
      · simp [hw]
  · simp only [genericRecords]
    cases hgi : ctx.genericIdx with
    | none => simp
    | some gi =>
      by_cases hw : gi + 5 < cr.length
      · simp [hw, gt_iff_lt]
        rw [or_iff_not_imp_left, not_lt]
      · simp [hw]
  · simp only [brandRecords]
    split
    · simp
    · split
      · split <;> simp
      · simp
  · simp only [genericRecords]
    split
    · simp
    · split
      · split <;> simp
      · simp

/-- Claim C9: every record a table contributes has delivery channel
"Mail Order" or "Retail" and drug type "Brand" or "Generic", and a table
whose first four rows mention neither MAIL nor RETAIL in their upper-cased
dump contributes no records. -/
theorem c9_channel_drug :
    ∀ (m : ParseMeta) (t : TableT),
    ((tableRecords m t).all (fun r =>
        (r.delivery_channel == "Mail Order" || r.delivery_channel == "Retail") &&
        (r.drug_type == "Brand" || r.drug_type == "Generic")) = true) ∧
    (containsSub (headerDump t) "MAIL" = false →
      containsSub (headerDump t) "RETAIL" = false → tableRecords m t = []) := by
  intro m t
  constructor
  · refine List.all_eq_true.2 (fun r hr => ?_)
    have h := mem_tableRecords hr
    rcases h.2.2.1 with hch | hch <;> rcases h.2.2.2 with hd | hd <;>
      simp [hch, hd]
  · intro h1 h2
    simp only [tableRecords]
    split
    · rfl
    · rw [h1, h2]
      simp

/-- Claim C9 witness: a disclaimer-style table yields nothing. -/
theorem c9_channel_drug_w : tableRecords meta0 tblDisclaimer = [] :=
  (c9_channel_drug meta0 tblDisclaimer).2 (by decide) (by decide)

/-- Claim C10: client name and report month are carried forward across
pages — records of an appended page use the metadata folded over all
earlier pages updated by that page itself; a page whose text lacks the
"Client Name:" tag keeps the previous client, one with no month match keeps
the previous month; the initial metadata is "Unknown Client" with a null
month; and every emitted record carries the metadata it was produced
under. -/
theorem c10_meta_carry :
    (∀ (ps : List Page) (p : Page),
      parse_rx_report (ps ++ [p]) =
        parse_rx_report ps ++
          tablesRecords (metaUpdate (metaAfter ps) p.text) p.tables) ∧
    (∀ (m : ParseMeta) (text : String),
      afterFirst clientTag.data text.data = none → (metaUpdate m text).client = m.client) ∧
    (∀ (m : ParseMeta) (text : String),
      monthScan text.data = none → (metaUpdate m text).month = m.month) ∧
    metaAfter [] = ⟨"Unknown Client", none⟩ ∧
    (∀ (m : ParseMeta) (ts : List TableT) (r : RxRecord),
      r ∈ tablesRecords m ts → r.client_name = m.client ∧ r.report_month = m.month) := by
  refine ⟨?_, ?_, ?_, rfl, ?_⟩
  · intro ps p
    unfold parse_rx_report
    rw [parsePagesAcc_append [p] ps]
    simp only [parsePagesAcc]
    rw [parsePagesAcc_shift]
    rfl
  · intro m text h
    simp only [metaUpdate, clientUpdate, h, monthUpdate]
    split
    · rfl
    · split <;> rfl
  · intro m text h
    simp only [metaUpdate, monthUpdate, h]
    simp only [clientUpdate]
    cases hc : afterFirst clientTag.data text.data with
    | none => rfl
    | some rest => rfl
  · intro m ts r h
    have := mem_tablesRecords h
    exact ⟨this.1, this.2.1⟩

/-- Claim C10 witness: a page without metadata tags keeps the previous
client and month, and records produced under the initial metadata default
to "Unknown Client" and a null month. -/
theorem c10_meta_carry_w :
    (metaUpdate ⟨"Acme Co", some "2024-05-01"⟩ "hello").client = "Acme Co" ∧
    (metaUpdate ⟨"Acme Co", some "2024-05-01"⟩ "hello").month = some "2024-05-01" ∧
    (recAdair903.client_name = "Unknown Client" ∧ recAdair903.report_month = none) :=
  ⟨c10_meta_carry.2.1 ⟨"Acme Co", some "2024-05-01"⟩ "hello" (by decide),
   c10_meta_carry.2.2.1 ⟨"Acme Co", some "2024-05-01"⟩ "hello" (by decide),
   c10_meta_carry.2.2.2.2 meta0 [[mailRow, hdrRow, adairRow903, adairRow903]]
     recAdair903 (by decide)⟩
